import Mathlib

/-!
Verification development for the Violet Crown Pickleball standings
application (src/src/App.jsx, the Guided Matchday version of the file).

The JavaScript source is shallowly embedded below.  Conventions used by
the embedding:

* JavaScript numbers that hold integer quantities (scores, counters,
  points) are modelled as `Int`; the points table awards are `Nat`.
* The average point difference, a real division in the source, is
  modelled over `ℚ` (exact rational arithmetic).
* Player names are `String`; the source's `localeCompare` is modelled as
  code-point lexicographic comparison (`ltName`), and `String.trim` as a
  structural whitespace trim (`trimName`) so that everything reduces in
  the kernel.
* A season object (name → totals map) is modelled as a function
  `String → Option Totals`; object spread plus in-place field update in
  the source becomes a functional pointwise update (`setTotals`).
* JavaScript `Array.prototype.sort`, a stable comparator sort, is
  modelled by the stable insertion sort `jsSortBy` taking the comparator
  as a strict before relation.
* The 32-bit signed wraparound performed by the source through the shift
  and the bitwise-or with zero is modelled by `wrap32`.
-/

namespace VCCC

/-- Whitespace test for the trim model (space, tab, LF, CR). -/
def isWS (c : Char) : Bool :=
  c.toNat = 32 || c.toNat = 9 || c.toNat = 10 || c.toNat = 13

/-- Model of String.prototype.trim on the character list. -/
def trimChars (l : List Char) : List Char :=
  ((l.dropWhile isWS).reverse.dropWhile isWS).reverse

/-- Model of the trim applied to player names in the source. -/
def trimName (s : String) : String :=
  String.mk (trimChars s.data)

/-- Boolean lexicographic comparison on lists of naturals. -/
def lexLtN : List Nat → List Nat → Bool
  | [], [] => false
  | [], _ :: _ => true
  | _ :: _, [] => false
  | a :: as, b :: bs =>
      if a < b then true
      else if b < a then false
      else lexLtN as bs

/-- The code-point key of a name, used to model localeCompare. -/
def nameKey (s : String) : List Nat :=
  s.data.map Char.toNat

/-- Model of negative localeCompare: a strictly before b. -/
def ltName (a b : String) : Bool :=
  lexLtN (nameKey a) (nameKey b)

/-- Tier labels of the points table. -/
inductive Tier where
  | Slam
  | Signature
  | Challenger
deriving DecidableEq, Repr

/-- One row of the points table: tier label and the rank → award map. -/
structure TableInfo where
  label : Tier
  awards : Nat → Nat

/-- POINTS_TABLE from the source.  A rank that the object omits awards
nothing, which the embedding renders as award zero. -/
def POINTS_TABLE : Nat → Option TableInfo := fun size =>
  if size = 8 then
    some ⟨Tier.Slam, fun r =>
      if r = 1 then 1000 else if r = 2 then 600 else
      if r = 3 then 250 else if r = 4 then 100 else 0⟩
  else if size = 7 then
    some ⟨Tier.Signature, fun r =>
      if r = 1 then 700 else if r = 2 then 400 else
      if r = 3 then 100 else if r = 7 then 50 else 0⟩
  else if size = 6 then
    some ⟨Tier.Signature, fun r =>
      if r = 1 then 600 else if r = 2 then 300 else
      if r = 3 then 100 else 0⟩
  else if size = 5 then
    some ⟨Tier.Challenger, fun r =>
      if r = 1 then 300 else if r = 2 then 100 else
      if r = 5 then 50 else 0⟩
  else if size = 4 then
    some ⟨Tier.Challenger, fun r =>
      if r = 1 then 250 else if r = 2 then 100 else 0⟩
  else none

/-- Per-player season totals, the fields of emptyTotals in the source. -/
structure Totals where
  Points : Int
  Wins : Int
  Losses : Int
  PF : Int
  PA : Int
  SlamWins : Int
  SignatureWins : Int
  ChallengerWins : Int
deriving DecidableEq, Repr

/-- emptyTotals from the source. -/
def emptyTotals : Totals :=
  ⟨0, 0, 0, 0, 0, 0, 0, 0⟩

/-- One recorded game: two teams of player names and the two scores. -/
structure GameRec where
  team1 : List String
  team2 : List String
  s1 : Int
  s2 : Int
deriving DecidableEq, Repr

/-- One ledger event: size, sparse rank → players placements (as an
ordered association list, mirroring ascending numeric key iteration of
the source object), and the recorded games. -/
structure Event where
  size : Nat
  placements : List (Nat × List String)
  gameStats : List GameRec
deriving DecidableEq, Repr

/-- A season object: player name → totals, absent names map to none. -/
abbrev Season : Type := String → Option Totals

/-- The season with no players. -/
def emptySeason : Season := fun _ => none

/-- Reading a name from a season, defaulting to emptyTotals exactly as
the source expression next n or emptyTotals does. -/
def getTotals (s : Season) (n : String) : Totals :=
  (s n).getD emptyTotals

/-- Pointwise update of a season object at one name. -/
def setTotals (s : Season) (n : String) (t : Totals) : Season :=
  fun m => if m = n then some t else s m

/-- Title-counter bump of applyEventToSeason: each tier counter grows by
one exactly when the label matches and the place is 1. -/
def bumpTier (label : Tier) (place : Nat) (t : Totals) : Totals :=
  { t with
    SlamWins := t.SlamWins + (if label = Tier.Slam ∧ place = 1 then 1 else 0)
    SignatureWins :=
      t.SignatureWins + (if label = Tier.Signature ∧ place = 1 then 1 else 0)
    ChallengerWins :=
      t.ChallengerWins + (if label = Tier.Challenger ∧ place = 1 then 1 else 0) }

/-- Placement loop body of applyEventToSeason: skip a rank without an
award, then credit every listed player with a nonempty trimmed name. -/
def applyPlacement (label : Tier) (awards : Nat → Nat) (s : Season)
    (pl : Nat × List String) : Season :=
  let pts := awards pl.1
  if pts = 0 then s
  else
    pl.2.foldl
      (fun acc p =>
        let n := trimName p
        if n = "" then acc
        else
          let t := getTotals acc n
          setTotals acc n
            (bumpTier label pl.1 { t with Points := t.Points + (pts : Int) }))
      s

/-- PF and PA accumulation for one player of one game. -/
def addPFPA (own opp : Int) (acc : Season) (p : String) : Season :=
  let t := getTotals acc p
  setTotals acc p { t with PF := t.PF + own, PA := t.PA + opp }

/-- Win counter bump for one player. -/
def addWin (acc : Season) (p : String) : Season :=
  let t := getTotals acc p
  setTotals acc p { t with Wins := t.Wins + 1 }

/-- Loss counter bump for one player. -/
def addLoss (acc : Season) (p : String) : Season :=
  let t := getTotals acc p
  setTotals acc p { t with Losses := t.Losses + 1 }

/-- Per-game loop body of applyEventToSeason: both teams accumulate PF
and PA, then the strictly higher-scoring team gets wins and the other
losses; an equal score changes no win or loss counter. -/
def applyGame (s : Season) (g : GameRec) : Season :=
  let sa := g.team1.foldl (addPFPA g.s1 g.s2) s
  let sb := g.team2.foldl (addPFPA g.s2 g.s1) sa
  if g.s2 < g.s1 then g.team2.foldl addLoss (g.team1.foldl addWin sb)
  else if g.s1 < g.s2 then g.team1.foldl addLoss (g.team2.foldl addWin sb)
  else sb

/-- applyEventToSeason from the source: an event whose size has no
points-table row is returned unchanged; otherwise placements are
credited and then the recorded games are accumulated. -/
def applyEventToSeason (season : Season) (ev : Event) : Season :=
  match POINTS_TABLE ev.size with
  | none => season
  | some info =>
      ev.gameStats.foldl applyGame
        (ev.placements.foldl (applyPlacement info.label info.awards) season)

/-- recomputeFromLedger from the source: fold all events over the empty
season. -/
def recomputeFromLedger (events : List Event) : Season :=
  events.foldl applyEventToSeason emptySeason

/-! ### Stable comparator sort, the model of Array.prototype.sort -/

/-- Insert an element into a sorted list: walk past every element that is
strictly before it, so that an element ties stably after earlier ones. -/
def insertOrdered {α : Type} (before : α → α → Bool) (a : α) :
    List α → List α
  | [] => [a]
  | b :: bs => if before b a then b :: insertOrdered before a bs else a :: b :: bs

/-- Stable sort by a strict before comparator. -/
def jsSortBy {α : Type} (before : α → α → Bool) : List α → List α
  | [] => []
  | a :: as => insertOrdered before a (jsSortBy before as)

/-! ### Season ranking cascade -/

/-- One standings row: a player name together with season totals. -/
structure Row where
  Player : String
  totals : Totals
deriving DecidableEq, Repr

/-- calcAvgDiff from the source: (PF - PA) / games played, and zero when
no game was played. -/
def calcAvgDiff (r : Row) : ℚ :=
  let gp : Int := r.totals.Wins + r.totals.Losses
  if gp = 0 then 0 else ((r.totals.PF - r.totals.PA : Int) : ℚ) / (gp : ℚ)

/-- The rankPlayers comparator: a sorts strictly before b.  Mirrors the
source chain Points desc, Wins desc, PF desc, average diff desc, then
name ascending by localeCompare. -/
def rowBefore (a b : Row) : Bool :=
  if a.totals.Points ≠ b.totals.Points then decide (b.totals.Points < a.totals.Points)
  else if a.totals.Wins ≠ b.totals.Wins then decide (b.totals.Wins < a.totals.Wins)
  else if a.totals.PF ≠ b.totals.PF then decide (b.totals.PF < a.totals.PF)
  else if calcAvgDiff a ≠ calcAvgDiff b then decide (calcAvgDiff b < calcAvgDiff a)
  else ltName a.Player b.Player

/-- Display rounding of the average diff to two decimals. -/
def round2 (q : ℚ) : ℚ :=
  ((round (q * 100) : Int) : ℚ) / 100

/-- One output row of rankPlayers: the row plus its one-based rank and
the rounded display average diff. -/
structure RankedRow where
  row : Row
  Rank : Nat
  AvgDiff : ℚ
deriving DecidableEq, Repr

/-- rankPlayers from the source: sort by the comparator, then decorate
with ranks and the display-rounded average diff. -/
def rankPlayers (rows : List Row) : List RankedRow :=
  (jsSortBy rowBefore rows).enum.map
    (fun ir => ⟨ir.2, ir.1 + 1, round2 (calcAvgDiff ir.2)⟩)

/-! ### Deterministic hash ordering -/

/-- Two's-complement 32-bit wraparound on integers. -/
def wrap32 (n : Int) : Int :=
  (n + 2147483648) % 4294967296 - 2147483648

/-- One step of hashStr: the source computes the shift by five minus the
original, adds the character code, and forces the result back into a
signed 32-bit integer with the bitwise or. -/
def hashStep (h : Int) (c : Char) : Int :=
  wrap32 (wrap32 (h * 32) - h + (c.toNat : Int))

/-- hashStr from the source, seeded at zero. -/
def hashStr (s : String) : Int :=
  s.data.foldl hashStep 0

/-- shuffleDeterministic from the source: sort names ascending by their
hash value. -/
def shuffleDeterministic (names : List String) : List String :=
  jsSortBy (fun a b => decide (hashStr a < hashStr b)) names

/-! ### Tournament templates -/

/-- One pool schedule entry: phase targets plus the two letter pairs. -/
structure PoolEntry where
  target : Nat
  winBy : Nat
  pair1 : List Char
  pair2 : List Char
  label : String
deriving DecidableEq, Repr

/-- Constructor P of buildPoolSchedule: pool games go to 11, win by 1. -/
def mkPool (l1 l2 : List Char) (label : String) : PoolEntry :=
  ⟨11, 1, l1, l2, label⟩

/-- buildPoolSchedule from the source. -/
def buildPoolSchedule (size : Nat) : List PoolEntry :=
  if size = 4 then
    [mkPool ['A','B'] ['C','D'] "Pool 1",
     mkPool ['A','D'] ['B','C'] "Pool 2",
     mkPool ['A','C'] ['B','D'] "Pool 3"]
  else if size = 5 then
    [mkPool ['A','C'] ['D','E'] "Pool 1",
     mkPool ['A','E'] ['B','D'] "Pool 2",
     mkPool ['A','D'] ['B','C'] "Pool 3",
     mkPool ['A','E'] ['B','C'] "Pool 4",
     mkPool ['B','E'] ['C','D'] "Pool 5"]
  else if size = 6 then
    [mkPool ['A','B'] ['C','D'] "Pool 1",
     mkPool ['A','F'] ['B','E'] "Pool 2",
     mkPool ['C','D'] ['E','F'] "Pool 3",
     mkPool ['A','D'] ['B','C'] "Pool 4",
     mkPool ['A','E'] ['B','F'] "Pool 5",
     mkPool ['C','F'] ['D','E'] "Pool 6"]
  else if size = 7 then
    [mkPool ['A','G'] ['C','E'] "Pool 1",
     mkPool ['B','F'] ['D','G'] "Pool 2",
     mkPool ['A','C'] ['E','F'] "Pool 3",
     mkPool ['B','D'] ['E','G'] "Pool 4",
     mkPool ['A','D'] ['C','F'] "Pool 5",
     mkPool ['B','C'] ['A','F'] "Pool 6",
     mkPool ['B','G'] ['D','E'] "Pool 7"]
  else if size = 8 then
    [mkPool ['A','C'] ['E','G'] "Pool 1",
     mkPool ['B','D'] ['F','H'] "Pool 2",
     mkPool ['A','G'] ['C','E'] "Pool 3",
     mkPool ['B','H'] ['D','F'] "Pool 4",
     mkPool ['A','E'] ['C','G'] "Pool 5",
     mkPool ['B','F'] ['D','H'] "Pool 6"]
  else []

/-- One side of a derived bracket entry. -/
inductive SideRef where
  | fixedLetters (letters : List Char)
  | winnerOf (label : String)
  | loserOf (label : String)
deriving DecidableEq, Repr

/-- The teams of a bracket entry: either two direct letter pairs or two
derived side references. -/
inductive BracketTeams where
  | pairs (pair1 pair2 : List Char)
  | derivedFrom (from1 from2 : SideRef)
deriving DecidableEq, Repr

/-- One bracket schedule entry: targets, the teams, and the label. -/
structure BracketEntry where
  target : Nat
  winBy : Nat
  teams : BracketTeams
  label : String
deriving DecidableEq, Repr

/-- Constructor B of buildBracketSchedule: to 15, win by 2. -/
def mkBracket (l1 l2 : List Char) (label : String) : BracketEntry :=
  ⟨15, 2, BracketTeams.pairs l1 l2, label⟩

/-- Constructor BD of buildBracketSchedule: a derived entry. -/
def mkDerived (f1 f2 : SideRef) (label : String) : BracketEntry :=
  ⟨15, 2, BracketTeams.derivedFrom f1 f2, label⟩

/-- buildBracketSchedule from the source. -/
def buildBracketSchedule (size : Nat) : List BracketEntry :=
  if size = 4 then
    [mkBracket ['A','B'] ['C','D'] "Final"]
  else if size = 5 then
    [mkBracket ['A','B'] ['C','D'] "Final"]
  else if size = 6 then
    [mkBracket ['C','D'] ['E','F'] "SF",
     mkDerived (SideRef.fixedLetters ['A','B']) (SideRef.winnerOf "SF") "Final"]
  else if size = 7 then
    [mkBracket ['C','D'] ['E','F'] "SF",
     mkDerived (SideRef.fixedLetters ['A','B']) (SideRef.winnerOf "SF") "Final"]
  else if size = 8 then
    [mkBracket ['A','B'] ['G','H'] "SF1",
     mkBracket ['C','D'] ['E','F'] "SF2",
     mkDerived (SideRef.loserOf "SF1") (SideRef.loserOf "SF2") "Bronze",
     mkDerived (SideRef.winnerOf "SF1") (SideRef.winnerOf "SF2") "Final"]
  else []

/-! ### Pool standings resolver -/

/-- One pool-table row: per-player pool wins, losses, PF, PA. -/
structure PoolRow where
  Player : String
  W : Int
  L : Int
  PF : Int
  PA : Int
deriving DecidableEq, Repr

/-- Accumulated pool statistics of one name over the pool games, using
occurrence counts so that repeated listings accumulate exactly as the
per-player forEach loops of the source do. -/
def poolStatFor (gs : List GameRec) (n : String) : PoolRow :=
  gs.foldl
    (fun r g =>
      let c1 : Int := (g.team1.count n : Nat)
      let c2 : Int := (g.team2.count n : Nat)
      { r with
        PF := r.PF + c1 * g.s1 + c2 * g.s2
        PA := r.PA + c1 * g.s2 + c2 * g.s1
        W := r.W + (if g.s2 < g.s1 then c1 else 0) + (if g.s1 < g.s2 then c2 else 0)
        L := r.L + (if g.s2 < g.s1 then c2 else 0) + (if g.s1 < g.s2 then c1 else 0) })
    ⟨n, 0, 0, 0, 0⟩

/-- The names of a pool game in listing order. -/
def gamePlayers (g : GameRec) : List String :=
  g.team1 ++ g.team2

/-- First-occurrence deduplication, the insertion order of the keys of
the pool table object. -/
def firstDedup (l : List String) : List String :=
  l.foldl (fun acc n => if n ∈ acc then acc else acc ++ [n]) []

/-- The participants of the pool games in first-appearance order. -/
def poolNames (gs : List GameRec) : List String :=
  firstDedup (gs.foldl (fun acc g => acc ++ gamePlayers g) [])

/-- The pool standings comparator from the source: wins desc, then point
differential desc, then PF desc, then name ascending by localeCompare. -/
def poolBefore (a b : PoolRow) : Bool :=
  if a.W ≠ b.W then decide (b.W < a.W)
  else if a.PF - a.PA ≠ b.PF - b.PA then decide (b.PF - b.PA < a.PF - a.PA)
  else if a.PF ≠ b.PF then decide (b.PF < a.PF)
  else ltName a.Player b.Player

/-- computePoolStandings from the source: build the per-player table,
sort rows by the comparator, return the names best first. -/
def computePoolStandings (poolGames : List GameRec) : List String :=
  (jsSortBy poolBefore ((poolNames poolGames).map (poolStatFor poolGames))).map
    PoolRow.Player

/-! ### Placement resolver -/

/-- One completed match: its label and the winner and loser teams. -/
structure MatchResult where
  label : String
  winner : List String
  loser : List String
deriving DecidableEq, Repr

/-- byLabel of computePlacements: the first result with the label. -/
def byLabel (results : List MatchResult) (label : String) : Option MatchResult :=
  results.find? (fun r => r.label = label)

/-- prunePlacements from the source: drop every rank whose player list
is empty. -/
def prunePlacements (p : List (Nat × List String)) :
    List (Nat × List String) :=
  p.filter (fun kv => !kv.2.isEmpty)

/-- The winner team of an optional result, or an empty list. -/
def winnerOpt : Option MatchResult → List String
  | some m => m.winner
  | none => []

/-- The loser team of an optional result, or an empty list. -/
def loserOpt : Option MatchResult → List String
  | some m => m.loser
  | none => []

/-- The single-player list for a structurally placed letter: present
exactly when the letter maps to a nonempty name, mirroring the truthy
check of the source. -/
def letterSlot (lettersBracket : Char → Option String) (c : Char) :
    List String :=
  match lettersBracket c with
  | some n => if n = "" then [] else [n]
  | none => []

/-- computePlacements from the source.  The base object carries ranks
1, 2, 3, 4, 5, 7 in ascending key order; per size the bracket results
and the structural letters fill some of them, and the rest are pruned. -/
def computePlacements (size : Nat) (allResults : List MatchResult)
    (lettersBracket : Char → Option String) : List (Nat × List String) :=
  if size = 4 then
    let final := byLabel allResults "Final"
    prunePlacements
      [(1, winnerOpt final), (2, loserOpt final), (3, []), (4, []), (5, []), (7, [])]
  else if size = 5 then
    let final := byLabel allResults "Final"
    prunePlacements
      [(1, winnerOpt final), (2, loserOpt final), (3, []), (4, []),
       (5, letterSlot lettersBracket 'E'), (7, [])]
  else if size = 6 then
    let sf := byLabel allResults "SF"
    let final := byLabel allResults "Final"
    prunePlacements
      [(1, winnerOpt final), (2, loserOpt final), (3, loserOpt sf), (4, []),
       (5, []), (7, [])]
  else if size = 7 then
    let sf := byLabel allResults "SF"
    let final := byLabel allResults "Final"
    prunePlacements
      [(1, winnerOpt final), (2, loserOpt final), (3, loserOpt sf), (4, []),
       (5, []), (7, letterSlot lettersBracket 'G')]
  else if size = 8 then
    let bronze := byLabel allResults "Bronze"
    let final := byLabel allResults "Final"
    prunePlacements
      [(1, winnerOpt final), (2, loserOpt final), (3, winnerOpt bronze),
       (4, loserOpt bronze), (5, []), (7, [])]
  else
    prunePlacements [(1, []), (2, []), (3, []), (4, []), (5, []), (7, [])]

/-! ### Order-theoretic facts about the comparators -/

theorem lexLtN_iff (l1 l2 : List Nat) : lexLtN l1 l2 = true ↔ l1 < l2 := by
  induction l1 generalizing l2 with
  | nil =>
    cases l2 with
    | nil =>
      constructor
      · intro h; simp [lexLtN] at h
      · intro h; exact absurd h (lt_irrefl _)
    | cons b bs =>
      constructor
      · intro _; exact List.Lex.nil
      · intro _; rfl
  | cons a as ih =>
    cases l2 with
    | nil =>
      constructor
      · intro h; simp [lexLtN] at h
      · intro h; cases h
    | cons b bs =>
      by_cases h1 : a < b
      · constructor
        · intro _; exact List.Lex.rel h1
        · intro _; simp [lexLtN, h1]
      · by_cases h2 : b < a
        · constructor
          · intro h; simp [lexLtN, h1, h2] at h
          · intro h
            cases h with
            | cons h' => omega
            | rel h' => omega
        · have he : a = b := by omega
          subst he
          constructor
          · intro h
            simp [lexLtN, h1, h2] at h
            exact List.Lex.cons ((ih bs).mp h)
          · intro h
            simp [lexLtN]
            cases h with
            | cons h' => exact (ih bs).mpr h'
            | rel h' => omega

theorem ltName_iff (a b : String) : ltName a b = true ↔ nameKey a < nameKey b :=
  lexLtN_iff (nameKey a) (nameKey b)

theorem insertOrdered_perm {α : Type} (before : α → α → Bool) (a : α)
    (l : List α) : (insertOrdered before a l).Perm (a :: l) := by
  induction l with
  | nil => exact List.Perm.refl _
  | cons b bs ih =>
    by_cases h : before b a = true
    · simp only [insertOrdered, h, if_true]
      exact (ih.cons b).trans (List.Perm.swap a b bs)
    · simp only [insertOrdered, h, if_false]
      exact List.Perm.refl _

theorem jsSortBy_perm {α : Type} (before : α → α → Bool) (l : List α) :
    (jsSortBy before l).Perm l := by
  induction l with
  | nil => exact List.Perm.refl _
  | cons a as ih =>
    exact (insertOrdered_perm before a (jsSortBy before as)).trans (ih.cons a)

theorem insertOrdered_pairwise {α K : Type} [LinearOrder K] (key : α → K)
    (before : α → α → Bool) (hb : ∀ x y, before x y = true ↔ key x < key y)
    (a : α) (l : List α) (hl : l.Pairwise fun x y => key x ≤ key y) :
    (insertOrdered before a l).Pairwise fun x y => key x ≤ key y := by
  induction hl with
  | nil => simp [insertOrdered]
  | @cons b bs hbAll hbs ih =>
    by_cases h : before b a = true
    · simp only [insertOrdered, h, if_true]
      refine List.pairwise_cons.mpr ⟨?_, ih⟩
      intro x hx
      have hx' : x ∈ a :: bs := (insertOrdered_perm before a bs).mem_iff.mp hx
      rcases List.mem_cons.mp hx' with h' | hx''
      · rw [h']
        exact le_of_lt ((hb b a).mp h)
      · exact hbAll x hx''
    · simp only [insertOrdered, h, if_false]
      have hab : key a ≤ key b := le_of_not_lt fun hlt => h ((hb b a).mpr hlt)
      refine List.pairwise_cons.mpr ⟨?_, List.Pairwise.cons hbAll hbs⟩
      intro x hx
      rcases List.mem_cons.mp hx with h' | hx'
      · rw [h']
        exact hab
      · exact hab.trans (hbAll x hx')

theorem jsSortBy_pairwise {α K : Type} [LinearOrder K] (key : α → K)
    (before : α → α → Bool) (hb : ∀ x y, before x y = true ↔ key x < key y)
    (l : List α) :
    (jsSortBy before l).Pairwise fun x y => key x ≤ key y := by
  induction l with
  | nil => simp [jsSortBy]
  | cons a as ih => exact insertOrdered_pairwise key before hb a _ ih

/-- The sort key of the season ranking cascade: descending components
are negated, the final component is the name key. -/
def rowKey (r : Row) : ℤ ×ₗ ℤ ×ₗ ℤ ×ₗ ℚ ×ₗ List ℕ :=
  toLex (-r.totals.Points,
    toLex (-r.totals.Wins,
      toLex (-r.totals.PF,
        toLex (-calcAvgDiff r, nameKey r.Player))))

/-- The season ranking cascade in the words of the specification. -/
def cascadeBefore (a b : Row) : Prop :=
  b.totals.Points < a.totals.Points ∨
  (a.totals.Points = b.totals.Points ∧ (b.totals.Wins < a.totals.Wins ∨
   (a.totals.Wins = b.totals.Wins ∧ (b.totals.PF < a.totals.PF ∨
    (a.totals.PF = b.totals.PF ∧ (calcAvgDiff b < calcAvgDiff a ∨
     (calcAvgDiff a = calcAvgDiff b ∧ nameKey a.Player < nameKey b.Player)))))))

theorem rowBefore_iff_cascade (a b : Row) :
    rowBefore a b = true ↔ cascadeBefore a b := by
  unfold rowBefore cascadeBefore
  by_cases h1 : a.totals.Points = b.totals.Points
  · by_cases h2 : a.totals.Wins = b.totals.Wins
    · by_cases h3 : a.totals.PF = b.totals.PF
      · by_cases h4 : calcAvgDiff a = calcAvgDiff b
        · simp [h1, h2, h3, h4, ltName_iff]
        · simp [h1, h2, h3, h4]
      · simp [h1, h2, h3]
    · simp [h1, h2]
  · simp [h1]

theorem cascade_iff_keyLt (a b : Row) :
    cascadeBefore a b ↔ rowKey a < rowKey b := by
  unfold cascadeBefore rowKey
  simp only [Prod.Lex.lt_iff, neg_lt_neg_iff, neg_inj]

theorem rowBefore_iff_keyLt (a b : Row) :
    rowBefore a b = true ↔ rowKey a < rowKey b :=
  (rowBefore_iff_cascade a b).trans (cascade_iff_keyLt a b)

/-- The sort key of the pool standings comparator. -/
def poolKey (r : PoolRow) : ℤ ×ₗ ℤ ×ₗ ℤ ×ₗ List ℕ :=
  toLex (-r.W, toLex (-(r.PF - r.PA), toLex (-r.PF, nameKey r.Player)))

/-- The pool standings cascade in the words of the specification plus
the name tie-break the source actually performs. -/
def poolCascadeBefore (a b : PoolRow) : Prop :=
  b.W < a.W ∨
  (a.W = b.W ∧ (b.PF - b.PA < a.PF - a.PA ∨
   (a.PF - a.PA = b.PF - b.PA ∧ (b.PF < a.PF ∨
    (a.PF = b.PF ∧ nameKey a.Player < nameKey b.Player)))))

theorem poolBefore_iff_cascade (a b : PoolRow) :
    poolBefore a b = true ↔ poolCascadeBefore a b := by
  unfold poolBefore poolCascadeBefore
  by_cases h1 : a.W = b.W
  · by_cases h2 : a.PF - a.PA = b.PF - b.PA
    · by_cases h3 : a.PF = b.PF
      · have h4 : a.PA = b.PA := by omega
        simp [h1, h2, h3, h4, ltName_iff]
      · simp [h1, h2, h3]
    · simp [h1, h2]
  · simp [h1]

theorem poolCascade_iff_keyLt (a b : PoolRow) :
    poolCascadeBefore a b ↔ poolKey a < poolKey b := by
  unfold poolCascadeBefore poolKey
  simp only [Prod.Lex.lt_iff, neg_lt_neg_iff, neg_inj]

theorem poolBefore_iff_keyLt (a b : PoolRow) :
    poolBefore a b = true ↔ poolKey a < poolKey b :=
  (poolBefore_iff_cascade a b).trans (poolCascade_iff_keyLt a b)

/-! ### Hash step lemma -/

theorem hashStep_eq (h : Int) (c : Char) :
    hashStep h c = wrap32 (31 * h + (c.toNat : Int)) := by
  unfold hashStep wrap32
  omega

/-! ### Template letter and reference bookkeeping -/

/-- All letters of the team-1 pairs of a pool design. -/
def poolPair1Letters (size : Nat) : List Char :=
  (buildPoolSchedule size).foldl (fun acc e => acc ++ e.pair1) []

/-- All letters of the team-2 pairs of a pool design. -/
def poolPair2Letters (size : Nat) : List Char :=
  (buildPoolSchedule size).foldl (fun acc e => acc ++ e.pair2) []

/-- All letters a pool design uses anywhere. -/
def poolUsedLetters (size : Nat) : List Char :=
  poolPair1Letters size ++ poolPair2Letters size

/-- The alphabet of the letter assigner. -/
def alphabet : List Char :=
  "ABCDEFGHIJKLMNOPQRSTUVWXYZ".data

/-- The letters that seat a roster of the given size. -/
def lettersUpTo (size : Nat) : List Char :=
  alphabet.take size

/-- True when every letter the pool design uses appears at least once in
a team-1 pair and at least once in a team-2 pair. -/
def poolBothSidesOK (size : Nat) : Bool :=
  (poolUsedLetters size).all fun c =>
    (poolPair1Letters size).contains c && (poolPair2Letters size).contains c

/-- The labels a derived side refers to. -/
def sideRefLabels : SideRef → List String
  | SideRef.fixedLetters _ => []
  | SideRef.winnerOf l => [l]
  | SideRef.loserOf l => [l]

/-- The labels a bracket entry refers to. -/
def entryRefLabels (e : BracketEntry) : List String :=
  match e.teams with
  | BracketTeams.pairs _ _ => []
  | BracketTeams.derivedFrom f1 f2 => sideRefLabels f1 ++ sideRefLabels f2

/-- True when every derived reference in the list names only labels of
entries that occur strictly earlier. -/
def bracketRefsOK : List String → List BracketEntry → Bool
  | _, [] => true
  | seen, e :: rest =>
      (entryRefLabels e).all (fun l => seen.contains l) &&
        bracketRefsOK (seen ++ [e.label]) rest

/-- The property claimed for the templates: both-sides coverage of every
pool letter, and earlier-only derived bracket references. -/
def templateClaim : Prop :=
  ∀ size ∈ ([4, 5, 6, 7, 8] : List Nat),
    poolBothSidesOK size = true ∧
    bracketRefsOK [] (buildBracketSchedule size) = true

/-! ### C6 -/

/-- C6: the hash ordering primitive folds name characters left to right
with a 31-multiplier step under two's-complement 32-bit wraparound,
seeded at zero; the deterministic ordering sorts names ascending by this
hash; hash of Al is 2123, hash of Bo is 2157, and the deterministic
ordering of Bo, Al is Al, Bo. -/
theorem c6_hash_ordering_primitive :
    (∀ s : String, hashStr s =
        s.data.foldl (fun h c => wrap32 (31 * h + (c.toNat : Int))) 0) ∧
    (∀ names : List String,
        (shuffleDeterministic names).Perm names ∧
        (shuffleDeterministic names).Pairwise fun a b => hashStr a ≤ hashStr b) ∧
    hashStr "Al" = 2123 ∧ hashStr "Bo" = 2157 ∧
    shuffleDeterministic ["Bo", "Al"] = ["Al", "Bo"] := by
  refine ⟨?_, ?_, by decide, by decide, by decide⟩
  · intro s
    have hstep : hashStep = fun h c => wrap32 (31 * h + (c.toNat : Int)) :=
      funext fun h => funext fun c => hashStep_eq h c
    rw [hashStr, hstep]
  · intro names
    refine ⟨jsSortBy_perm _ names, ?_⟩
    exact jsSortBy_pairwise hashStr
      (fun a b => decide (hashStr a < hashStr b)) (by simp) names

/-! ### C3 -/

/-- C3: an event whose size has no points-table row is skipped in its
entirety by the ledger reducer, so removing it from any event sequence
leaves the computed season aggregates unchanged. -/
theorem c3_unsupported_size_noop :
    (∀ (s : Season) (ev : Event), POINTS_TABLE ev.size = none →
        applyEventToSeason s ev = s) ∧
    (∀ (pre post : List Event) (ev : Event), POINTS_TABLE ev.size = none →
        recomputeFromLedger (pre ++ ev :: post) = recomputeFromLedger (pre ++ post)) := by
  have h1 : ∀ (s : Season) (ev : Event), POINTS_TABLE ev.size = none →
      applyEventToSeason s ev = s := by
    intro s ev h
    unfold applyEventToSeason
    rw [h]
  refine ⟨h1, ?_⟩
  intro pre post ev h
  unfold recomputeFromLedger
  rw [List.foldl_append, List.foldl_append, List.foldl_cons,
    h1 _ ev h]

/-- A concrete supported event used by witnesses. -/
def evC3a : Event :=
  ⟨4, [(1, ["Al", "Bo"]), (2, ["Cy", "Di"])], [⟨["Al", "Bo"], ["Cy", "Di"], 11, 7⟩]⟩

/-- A concrete size-3 event whose size has no points-table row. -/
def evC3b : Event :=
  ⟨3, [(1, ["Al"])], [⟨["Al", "Bo"], ["Cy", "Di"], 9, 11⟩]⟩

/-- C3 witness: appending the size-3 event to a populated ledger leaves
the recomputed season unchanged. -/
theorem c3_unsupported_size_noop_witness :
    recomputeFromLedger [evC3a, evC3b] = recomputeFromLedger [evC3a] :=
  c3_unsupported_size_noop.2 [evC3a] [] evC3b rfl

/-! ### C5 -/

/-- C5 counterexample: the claim that every pool letter appears in both
a team-1 and a team-2 position fails at size 4, where letter A is used
but never appears in a team-2 pair. -/
theorem c5_counterexample :
    ('A' ∈ poolUsedLetters 4) ∧
    ('A' ∉ poolPair2Letters 4) ∧
    poolBothSidesOK 4 = false ∧
    ¬ templateClaim := by
  refine ⟨by decide, by decide, by decide, ?_⟩
  intro h
  have h4 := (h 4 (by decide)).1
  exact absurd h4 (by decide)

/-- C5 amended: for each size, the pool design uses exactly the first
size letters, every such letter appears in at least one team position
(though for sizes 4, 5, 6, 8 letter A, and for size 7 letter B, never
appears in a team-2 pair), and every derived bracket entry references
only labels of entries occurring earlier in the same bracket list. -/
theorem c5_template_well_formedness :
    (([4, 5, 6, 7, 8] : List Nat).all fun size =>
      ((lettersUpTo size).all fun c => (poolUsedLetters size).contains c) &&
      ((poolUsedLetters size).all fun c => (lettersUpTo size).contains c) &&
      bracketRefsOK [] (buildBracketSchedule size)) = true := by
  decide

/-! ### C8 -/

/-- C8: the placement resolver drops every rank with an empty player
list, and a size-4 event with a completed Final resolves to exactly the
winner pair at rank 1 and the loser pair at rank 2, never carrying ranks
3, 4, 5 or 7. -/
theorem c8_placement_pruning :
    (∀ (p : List (Nat × List String)) (r : Nat) (v : List String),
        (r, v) ∈ prunePlacements p ↔ ((r, v) ∈ p ∧ v ≠ [])) ∧
    (∀ (results : List MatchResult) (L : Char → Option String)
        (fr : MatchResult), byLabel results "Final" = some fr →
        fr.winner ≠ [] → fr.loser ≠ [] →
        computePlacements 4 results L = [(1, fr.winner), (2, fr.loser)] ∧
        ∀ v : List String,
          (3, v) ∉ computePlacements 4 results L ∧
          (4, v) ∉ computePlacements 4 results L ∧
          (5, v) ∉ computePlacements 4 results L ∧
          (7, v) ∉ computePlacements 4 results L) := by
  constructor
  · intro p r v
    simp [prunePlacements, List.mem_filter]
  · intro results L fr hf hw hl
    have hw' : fr.winner.isEmpty = false := by
      cases h : fr.winner with
      | nil => exact absurd h hw
      | cons x xs => rfl
    have hl' : fr.loser.isEmpty = false := by
      cases h : fr.loser with
      | nil => exact absurd h hl
      | cons x xs => rfl
    have heq : computePlacements 4 results L = [(1, fr.winner), (2, fr.loser)] := by
      unfold computePlacements
      simp [hf, winnerOpt, loserOpt, prunePlacements, List.filter, hw', hl']
    refine ⟨heq, ?_⟩
    intro v
    rw [heq]
    simp

/-- A concrete completed size-4 Final. -/
def resultsC8 : List MatchResult :=
  [⟨"Final", ["Al", "Bo"], ["Cy", "Di"]⟩]

/-- C8 witness: the concrete size-4 placement map is exactly ranks 1 and
2. -/
theorem c8_placement_pruning_witness :
    computePlacements 4 resultsC8 (fun _ => none) =
      [(1, ["Al", "Bo"]), (2, ["Cy", "Di"])] :=
  (c8_placement_pruning.2 resultsC8 (fun _ => none)
    ⟨"Final", ["Al", "Bo"], ["Cy", "Di"]⟩ rfl (by decide) (by decide)).1

/-! ### Season lookup helpers -/

theorem getTotals_setTotals_self (s : Season) (n : String) (t : Totals) :
    getTotals (setTotals s n t) n = t := by
  simp [getTotals, setTotals]

theorem getTotals_setTotals_ne (s : Season) (n : String) (t : Totals)
    (q : String) (h : q ≠ n) : getTotals (setTotals s n t) q = getTotals s q := by
  simp [getTotals, setTotals, h]

/-- The common shape of the per-player update steps: read, modify,
write back at one key. -/
def updAt (f0 : Totals → Totals) (s : Season) (p : String) : Season :=
  setTotals s p (f0 (getTotals s p))

theorem updAt_keeps {γ : Type} (f : Totals → γ) (f0 : Totals → Totals)
    (hf : ∀ t, f (f0 t) = f t) (s : Season) (p q : String) :
    f (getTotals (updAt f0 s p) q) = f (getTotals s q) := by
  unfold updAt
  by_cases h : q = p
  · subst h
    rw [getTotals_setTotals_self, hf]
  · rw [getTotals_setTotals_ne _ _ _ _ h]

theorem foldl_keeps {β γ : Type} (f : Totals → γ) (step : Season → β → Season)
    (hstep : ∀ (s : Season) (x : β) (q : String),
      f (getTotals (step s x) q) = f (getTotals s q)) :
    ∀ (l : List β) (s : Season) (q : String),
      f (getTotals (l.foldl step s) q) = f (getTotals s q) := by
  intro l
  induction l with
  | nil => intro s q; rfl
  | cons a as ih => intro s q; rw [List.foldl_cons, ih, hstep]

/-- Points and the three title counters of a totals record. -/
def pointsAndTitles (t : Totals) : Int × Int × Int × Int :=
  (t.Points, t.SlamWins, t.SignatureWins, t.ChallengerWins)

/-- The win and loss counters of a totals record. -/
def winLoss (t : Totals) : Int × Int :=
  (t.Wins, t.Losses)

theorem applyGame_keeps_pointsAndTitles (s : Season) (g : GameRec) (q : String) :
    pointsAndTitles (getTotals (applyGame s g) q) =
      pointsAndTitles (getTotals s q) := by
  have hpfpa : ∀ (x y : Int) (l : List String) (s' : Season) (q' : String),
      pointsAndTitles (getTotals (l.foldl (addPFPA x y) s') q') =
        pointsAndTitles (getTotals s' q') :=
    fun x y => foldl_keeps pointsAndTitles (addPFPA x y)
      (fun s' p q' => updAt_keeps pointsAndTitles
        (fun t => { t with PF := t.PF + x, PA := t.PA + y }) (fun _ => rfl) s' p q')
  have hwin : ∀ (l : List String) (s' : Season) (q' : String),
      pointsAndTitles (getTotals (l.foldl addWin s') q') =
        pointsAndTitles (getTotals s' q') :=
    foldl_keeps pointsAndTitles addWin
      (fun s' p q' => updAt_keeps pointsAndTitles
        (fun t => { t with Wins := t.Wins + 1 }) (fun _ => rfl) s' p q')
  have hloss : ∀ (l : List String) (s' : Season) (q' : String),
      pointsAndTitles (getTotals (l.foldl addLoss s') q') =
        pointsAndTitles (getTotals s' q') :=
    foldl_keeps pointsAndTitles addLoss
      (fun s' p q' => updAt_keeps pointsAndTitles
        (fun t => { t with Losses := t.Losses + 1 }) (fun _ => rfl) s' p q')
  unfold applyGame
  by_cases h1 : g.s2 < g.s1
  · simp only [h1, if_true]
    rw [hloss, hwin, hpfpa, hpfpa]
  · by_cases h2 : g.s1 < g.s2
    · simp only [h1, h2, if_false, if_true]
      rw [hloss, hwin, hpfpa, hpfpa]
    · simp only [h1, h2, if_false]
      rw [hpfpa, hpfpa]

theorem foldl_applyGame_keeps_pointsAndTitles (gs : List GameRec)
    (s : Season) (q : String) :
    pointsAndTitles (getTotals (gs.foldl applyGame s) q) =
      pointsAndTitles (getTotals s q) :=
  foldl_keeps pointsAndTitles applyGame
    (fun s' g q' => applyGame_keeps_pointsAndTitles s' g q') gs s q

/-! ### C9 -/

/-- C9: a game whose two scores are equal still credits each team's own
score to PF and the opposing score to PA of all four listed players, but
changes no win or loss counter of any player. -/
theorem c9_tie_game_accumulation :
    ∀ (s : Season) (g : GameRec) (p1 p2 p3 p4 : String),
      g.team1 = [p1, p2] → g.team2 = [p3, p4] → g.s1 = g.s2 →
      p1 ≠ p2 → p3 ≠ p4 → p1 ≠ p3 → p1 ≠ p4 → p2 ≠ p3 → p2 ≠ p4 →
      ((getTotals (applyGame s g) p1).PF = (getTotals s p1).PF + g.s1 ∧
       (getTotals (applyGame s g) p1).PA = (getTotals s p1).PA + g.s2) ∧
      ((getTotals (applyGame s g) p2).PF = (getTotals s p2).PF + g.s1 ∧
       (getTotals (applyGame s g) p2).PA = (getTotals s p2).PA + g.s2) ∧
      ((getTotals (applyGame s g) p3).PF = (getTotals s p3).PF + g.s2 ∧
       (getTotals (applyGame s g) p3).PA = (getTotals s p3).PA + g.s1) ∧
      ((getTotals (applyGame s g) p4).PF = (getTotals s p4).PF + g.s2 ∧
       (getTotals (applyGame s g) p4).PA = (getTotals s p4).PA + g.s1) ∧
      (∀ q : String,
        (getTotals (applyGame s g) q).Wins = (getTotals s q).Wins ∧
        (getTotals (applyGame s g) q).Losses = (getTotals s q).Losses) := by
  intro s g p1 p2 p3 p4 h1 h2 hs d12 d34 d13 d14 d23 d24
  have hgame : applyGame s g =
      g.team2.foldl (addPFPA g.s2 g.s1) (g.team1.foldl (addPFPA g.s1 g.s2) s) := by
    unfold applyGame
    rw [if_neg (by omega), if_neg (by omega)]
  rw [hgame, h1, h2]
  simp only [List.foldl_cons, List.foldl_nil]
  refine ⟨?_, ?_, ?_, ?_, ?_⟩
  · constructor <;>
      simp [addPFPA, getTotals, setTotals, d12.symm, d13.symm, d14.symm,
        d23.symm, d24.symm, d34.symm, d12, d13, d14, d23, d24, d34]
  · constructor <;>
      simp [addPFPA, getTotals, setTotals, d12.symm, d13.symm, d14.symm,
        d23.symm, d24.symm, d34.symm, d12, d13, d14, d23, d24, d34]
  · constructor <;>
      simp [addPFPA, getTotals, setTotals, d12.symm, d13.symm, d14.symm,
        d23.symm, d24.symm, d34.symm, d12, d13, d14, d23, d24, d34]
  · constructor <;>
      simp [addPFPA, getTotals, setTotals, d12.symm, d13.symm, d14.symm,
        d23.symm, d24.symm, d34.symm, d12, d13, d14, d23, d24, d34]
  · intro q
    have hW : ∀ (x y : Int) (s' : Season) (p q' : String),
        (getTotals (addPFPA x y s' p) q').Wins = (getTotals s' q').Wins :=
      fun x y s' p q' => updAt_keeps (fun t => t.Wins)
        (fun t => { t with PF := t.PF + x, PA := t.PA + y }) (fun _ => rfl) s' p q'
    have hL : ∀ (x y : Int) (s' : Season) (p q' : String),
        (getTotals (addPFPA x y s' p) q').Losses = (getTotals s' q').Losses :=
      fun x y s' p q' => updAt_keeps (fun t => t.Losses)
        (fun t => { t with PF := t.PF + x, PA := t.PA + y }) (fun _ => rfl) s' p q'
    exact ⟨by rw [hW, hW, hW, hW], by rw [hL, hL, hL, hL]⟩

/-- The tied game of the C9 witness. -/
def gTie : GameRec := ⟨["Al", "Bo"], ["Cy", "Di"], 8, 8⟩

/-- C9 witness: the concrete 8 to 8 game still adds 8 to both PF and PA
of a team-1 player. -/
theorem c9_tie_game_accumulation_witness :
    (getTotals (applyGame emptySeason gTie) "Al").PF =
        (getTotals emptySeason "Al").PF + gTie.s1 ∧
      (getTotals (applyGame emptySeason gTie) "Al").PA =
        (getTotals emptySeason "Al").PA + gTie.s2 :=
  (c9_tie_game_accumulation emptySeason gTie "Al" "Bo" "Cy" "Di"
    rfl rfl rfl (by decide) (by decide) (by decide) (by decide) (by decide)
    (by decide)).1

/-! ### C1 -/

theorem poolStatFor_Player (gs : List GameRec) (n : String) :
    (poolStatFor gs n).Player = n := by
  suffices h : ∀ (l : List GameRec) (r : PoolRow),
      (l.foldl (fun r g =>
        let c1 : Int := (g.team1.count n : Nat)
        let c2 : Int := (g.team2.count n : Nat)
        { r with
          PF := r.PF + c1 * g.s1 + c2 * g.s2
          PA := r.PA + c1 * g.s2 + c2 * g.s1
          W := r.W + (if g.s2 < g.s1 then c1 else 0) +
            (if g.s1 < g.s2 then c2 else 0)
          L := r.L + (if g.s2 < g.s1 then c2 else 0) +
            (if g.s1 < g.s2 then c1 else 0) }) r).Player = r.Player by
    exact h gs ⟨n, 0, 0, 0, 0⟩
  intro l
  induction l with
  | nil => intro r; rfl
  | cons g l ih => intro r; rw [List.foldl_cons, ih]

/-- The pool games of the C1 scenario: six players, with Zed and Amy
finishing on identical pool records (two wins, differential plus ten,
thirty points for) and Zed beating Amy in their only meeting. -/
def gamesC1 : List GameRec :=
  [⟨["Zed", "Pat"], ["Amy", "Quin"], 11, 5⟩,
   ⟨["Amy", "Rob"], ["Sam", "Quin"], 14, 5⟩,
   ⟨["Zed", "Rob"], ["Quin", "Sam"], 11, 6⟩,
   ⟨["Amy", "Sam"], ["Pat", "Quin"], 11, 4⟩,
   ⟨["Zed", "Quin"], ["Rob", "Sam"], 8, 9⟩]

/-- C1 counterexample: Zed and Amy tie on wins, differential and points
for, Zed won their only head-to-head pool meeting, yet the pool
standings resolver ranks Amy above Zed, because it breaks full ties by
name ascending and never consults head-to-head results. -/
theorem c1_counterexample :
    poolStatFor gamesC1 "Zed" = ⟨"Zed", 2, 1, 30, 20⟩ ∧
    poolStatFor gamesC1 "Amy" = ⟨"Amy", 2, 1, 30, 20⟩ ∧
    gamesC1.filter
        (fun g => (gamePlayers g).contains "Zed" &&
          (gamePlayers g).contains "Amy") =
      [⟨["Zed", "Pat"], ["Amy", "Quin"], 11, 5⟩] ∧
    computePoolStandings gamesC1 = ["Rob", "Amy", "Zed", "Sam", "Pat", "Quin"] ∧
    ¬ (computePoolStandings gamesC1).indexOf "Zed" <
        (computePoolStandings gamesC1).indexOf "Amy" := by
  refine ⟨by decide, by decide, by decide, by decide, by decide⟩

/-- C1 amended: the pool standings resolver returns the participants in
first-appearance order permuted into the order wins descending, then
differential descending, then points-for descending, with every
remaining tie, two-way or larger, broken by name ascending; head-to-head
results are never consulted, there is no hash fallback, and no audit
note is produced. -/
theorem c1_pool_tiebreak_by_name :
    ∀ gs : List GameRec,
      (computePoolStandings gs).Perm (poolNames gs) ∧
      (computePoolStandings gs).Pairwise fun n m =>
        ¬ poolCascadeBefore (poolStatFor gs m) (poolStatFor gs n) := by
  intro gs
  constructor
  · unfold computePoolStandings
    have h1 := (jsSortBy_perm poolBefore
      ((poolNames gs).map (poolStatFor gs))).map PoolRow.Player
    have h2 : ((poolNames gs).map (poolStatFor gs)).map PoolRow.Player =
        poolNames gs := by
      rw [List.map_map]
      have h3 : (PoolRow.Player ∘ poolStatFor gs) = id :=
        funext fun n => poolStatFor_Player gs n
      rw [h3, List.map_id]
    rw [h2] at h1
    exact h1
  · unfold computePoolStandings
    rw [List.pairwise_map]
    have hsorted := jsSortBy_pairwise poolKey poolBefore poolBefore_iff_keyLt
      ((poolNames gs).map (poolStatFor gs))
    have hmem : ∀ r ∈ jsSortBy poolBefore ((poolNames gs).map (poolStatFor gs)),
        poolStatFor gs r.Player = r := by
      intro r hr
      have hr2 : r ∈ (poolNames gs).map (poolStatFor gs) :=
        (jsSortBy_perm _ _).mem_iff.mp hr
      rcases List.mem_map.mp hr2 with ⟨n, _, rfl⟩
      rw [poolStatFor_Player]
    refine hsorted.imp_of_mem ?_
    intro a b ha hb hle
    rw [hmem a ha, hmem b hb, poolCascade_iff_keyLt]
    exact not_lt.mpr hle

/-! ### C2 -/

/-- The award a size grants a rank, zero when the size has no table. -/
def awardsOf (size r : Nat) : Nat :=
  match POINTS_TABLE size with
  | some i => i.awards r
  | none => 0

/-- The tier label of a size, when the size has a table. -/
def labelOf (size : Nat) : Option Tier :=
  (POINTS_TABLE size).map TableInfo.label

/-- An event of the given size whose only placement is one champion. -/
def rankOneEvent (size : Nat) (p : String) : Event :=
  ⟨size, [(1, [p])], []⟩

/-- C2: the points table is exactly the claimed award map for sizes 4
through 8 and no other size, the tier labels are Challenger for 4 and 5,
Signature for 6 and 7 and Slam for 8, and a rank-1 placement increments
exactly the tier counter of the event size while leaving every other
player untouched. -/
theorem c2_points_table_and_titles :
    (∀ r : Nat, awardsOf 4 r =
        if r = 1 then 250 else if r = 2 then 100 else 0) ∧
    (∀ r : Nat, awardsOf 5 r =
        if r = 1 then 300 else if r = 2 then 100 else if r = 5 then 50 else 0) ∧
    (∀ r : Nat, awardsOf 6 r =
        if r = 1 then 600 else if r = 2 then 300 else if r = 3 then 100 else 0) ∧
    (∀ r : Nat, awardsOf 7 r =
        if r = 1 then 700 else if r = 2 then 400 else if r = 3 then 100
        else if r = 7 then 50 else 0) ∧
    (∀ r : Nat, awardsOf 8 r =
        if r = 1 then 1000 else if r = 2 then 600 else if r = 3 then 250
        else if r = 4 then 100 else 0) ∧
    labelOf 4 = some Tier.Challenger ∧
    labelOf 5 = some Tier.Challenger ∧
    labelOf 6 = some Tier.Signature ∧
    labelOf 7 = some Tier.Signature ∧
    labelOf 8 = some Tier.Slam ∧
    (∀ size : Nat, (POINTS_TABLE size).isSome = true ↔
        (size = 4 ∨ size = 5 ∨ size = 6 ∨ size = 7 ∨ size = 8)) ∧
    (∀ (s : Season) (size : Nat) (p : String),
        (size = 4 ∨ size = 5 ∨ size = 6 ∨ size = 7 ∨ size = 8) →
        trimName p = p → p ≠ "" →
        ((getTotals (applyEventToSeason s (rankOneEvent size p)) p).SlamWins =
            (getTotals s p).SlamWins + (if size = 8 then 1 else 0) ∧
         (getTotals (applyEventToSeason s (rankOneEvent size p)) p).SignatureWins =
            (getTotals s p).SignatureWins +
              (if size = 6 ∨ size = 7 then 1 else 0) ∧
         (getTotals (applyEventToSeason s (rankOneEvent size p)) p).ChallengerWins =
            (getTotals s p).ChallengerWins +
              (if size = 4 ∨ size = 5 then 1 else 0) ∧
         (getTotals (applyEventToSeason s (rankOneEvent size p)) p).Points =
            (getTotals s p).Points + (awardsOf size 1 : Int) ∧
         (∀ q : String, q ≠ p →
            applyEventToSeason s (rankOneEvent size p) q = s q))) := by
  refine ⟨?_, ?_, ?_, ?_, ?_, by rfl, by rfl, by rfl, by rfl, by rfl, ?_, ?_⟩
  · intro r; simp [awardsOf, POINTS_TABLE]
  · intro r; simp [awardsOf, POINTS_TABLE]
  · intro r; simp [awardsOf, POINTS_TABLE]
  · intro r; simp [awardsOf, POINTS_TABLE]
  · intro r; simp [awardsOf, POINTS_TABLE]
  · intro size
    by_cases h8 : size = 8
    · simp [POINTS_TABLE, h8]
    · by_cases h7 : size = 7
      · simp [POINTS_TABLE, h7]
      · by_cases h6 : size = 6
        · simp [POINTS_TABLE, h6]
        · by_cases h5 : size = 5
          · simp [POINTS_TABLE, h5]
          · by_cases h4 : size = 4
            · simp [POINTS_TABLE, h4]
            · simp [POINTS_TABLE, h8, h7, h6, h5, h4]
  · intro s size p hsize htrim hp
    rcases hsize with rfl | rfl | rfl | rfl | rfl <;>
      refine ⟨?_, ?_, ?_, ?_, ?_⟩ <;>
        (simp [applyEventToSeason, rankOneEvent, POINTS_TABLE, applyPlacement,
          bumpTier, htrim, hp, getTotals, setTotals, awardsOf]) <;>
        (intro q hq hq2
         exact absurd hq2 hq)

/-! ### C7 -/

/-- C7: in a completed five-player matchday whose Final opposes the
teams at reseeded letters A, B and C, D under a bijective letter map,
the player at reseeded letter E appears in the placement map only at
rank 5, and applying the event credits that player exactly the 50-point
rank-5 award and no title counter. -/
theorem c7_five_player_letter_e :
    ∀ (L : Char → Option String) (results : List MatchResult)
      (fr : MatchResult) (a b c d e : String),
      L 'A' = some a → L 'B' = some b → L 'C' = some c → L 'D' = some d →
      L 'E' = some e →
      byLabel results "Final" = some fr →
      ((fr.winner = [a, b] ∧ fr.loser = [c, d]) ∨
        (fr.winner = [c, d] ∧ fr.loser = [a, b])) →
      trimName a = a → trimName b = b → trimName c = c → trimName d = d →
      trimName e = e →
      a ≠ "" → b ≠ "" → c ≠ "" → d ≠ "" → e ≠ "" →
      e ≠ a → e ≠ b → e ≠ c → e ≠ d →
      computePlacements 5 results L = [(1, fr.winner), (2, fr.loser), (5, [e])] ∧
      (∀ (r : Nat) (ps : List String),
        (r, ps) ∈ computePlacements 5 results L → e ∈ ps → r = 5) ∧
      (∀ (season : Season) (gs : List GameRec),
        pointsAndTitles (getTotals (applyEventToSeason season
            ⟨5, computePlacements 5 results L, gs⟩) e) =
          ((getTotals season e).Points + 50, (getTotals season e).SlamWins,
           (getTotals season e).SignatureWins,
           (getTotals season e).ChallengerWins)) := by
  intro L results fr a b c d e hA hB hC hD hE hf hteams
  intro ha hb hc hd he haE hbE hcE hdE hne hna hnb hnc hnd
  have heq : computePlacements 5 results L =
      [(1, fr.winner), (2, fr.loser), (5, [e])] := by
    rcases hteams with ⟨hw, hl⟩ | ⟨hw, hl⟩ <;>
      · unfold computePlacements
        simp [hf, winnerOpt, loserOpt, letterSlot, hE, hne, prunePlacements,
          List.filter, hw, hl]
  refine ⟨heq, ?_, ?_⟩
  · intro r ps hmem hein
    rw [heq] at hmem
    simp only [List.mem_cons, List.not_mem_nil, or_false] at hmem
    rcases hmem with h1 | h2 | h5
    · exfalso
      have hps : ps = fr.winner := congrArg Prod.snd h1
      rw [hps] at hein
      rcases hteams with ⟨hw, _⟩ | ⟨hw, _⟩ <;> rw [hw] at hein <;>
        simp only [List.mem_cons, List.not_mem_nil, or_false] at hein
      · rcases hein with h | h
        · exact hna h
        · exact hnb h
      · rcases hein with h | h
        · exact hnc h
        · exact hnd h
    · exfalso
      have hps : ps = fr.loser := congrArg Prod.snd h2
      rw [hps] at hein
      rcases hteams with ⟨_, hl⟩ | ⟨_, hl⟩ <;> rw [hl] at hein <;>
        simp only [List.mem_cons, List.not_mem_nil, or_false] at hein
      · rcases hein with h | h
        · exact hnc h
        · exact hnd h
      · rcases hein with h | h
        · exact hna h
        · exact hnb h
    · exact congrArg Prod.fst h5
  · intro season gs
    rw [heq]
    rcases hteams with ⟨hw, hl⟩ | ⟨hw, hl⟩ <;> rw [hw, hl] <;>
      · show pointsAndTitles (getTotals (applyEventToSeason season _) e) = _
        unfold applyEventToSeason
        simp only [POINTS_TABLE]
        norm_num
        rw [foldl_applyGame_keeps_pointsAndTitles]
        simp [applyPlacement, bumpTier, getTotals, setTotals, pointsAndTitles,
          ha, hb, hc, hd, he, haE, hbE, hcE, hdE, hne, hna, hnb, hnc, hnd]

/-- The concrete letter map of the C7 witness. -/
def lettersC7 : Char → Option String := fun ch =>
  if ch = 'A' then some "Al" else if ch = 'B' then some "Bo"
  else if ch = 'C' then some "Cy" else if ch = 'D' then some "Di"
  else if ch = 'E' then some "Ed" else none

/-- The concrete completed Final of the C7 witness. -/
def resultsC7 : List MatchResult :=
  [⟨"Final", ["Al", "Bo"], ["Cy", "Di"]⟩]

/-- C7 witness: the concrete five-player placement map carries Ed only
at rank 5. -/
theorem c7_five_player_letter_e_witness :
    computePlacements 5 resultsC7 lettersC7 =
      [(1, ["Al", "Bo"]), (2, ["Cy", "Di"]), (5, ["Ed"])] :=
  (c7_five_player_letter_e lettersC7 resultsC7
    ⟨"Final", ["Al", "Bo"], ["Cy", "Di"]⟩ "Al" "Bo" "Cy" "Di" "Ed"
    rfl rfl rfl rfl rfl rfl (Or.inl ⟨rfl, rfl⟩)
    (by decide) (by decide) (by decide) (by decide) (by decide)
    (by decide) (by decide) (by decide) (by decide) (by decide)
    (by decide) (by decide) (by decide) (by decide)).1

/-! ### C10 -/

/-- All eight aggregate fields are nonnegative. -/
def NonnegTotals (t : Totals) : Prop :=
  0 ≤ t.Points ∧ 0 ≤ t.Wins ∧ 0 ≤ t.Losses ∧ 0 ≤ t.PF ∧ 0 ≤ t.PA ∧
  0 ≤ t.SlamWins ∧ 0 ≤ t.SignatureWins ∧ 0 ≤ t.ChallengerWins

/-- Every present aggregate of the season object is nonnegative. -/
def NonnegSeason (s : Season) : Prop :=
  ∀ (n : String) (t : Totals), s n = some t → NonnegTotals t

theorem nonnegTotals_emptyTotals : NonnegTotals emptyTotals := by
  refine ⟨le_rfl, le_rfl, le_rfl, le_rfl, le_rfl, le_rfl, le_rfl, le_rfl⟩

theorem nonnegSeason_getTotals {s : Season} (hs : NonnegSeason s) (n : String) :
    NonnegTotals (getTotals s n) := by
  unfold getTotals
  cases h : s n with
  | none => exact nonnegTotals_emptyTotals
  | some t => exact hs n t h

theorem nonnegSeason_setTotals {s : Season} {t : Totals}
    (hs : NonnegSeason s) (n : String) (ht : NonnegTotals t) :
    NonnegSeason (setTotals s n t) := by
  intro m u hm
  unfold setTotals at hm
  by_cases h : m = n
  · rw [if_pos h] at hm
    cases hm
    exact ht
  · rw [if_neg h] at hm
    exact hs m u hm

theorem foldl_nonneg {β : Type} (step : Season → β → Season) (l : List β)
    (h : ∀ (s : Season) (x : β), x ∈ l → NonnegSeason s →
      NonnegSeason (step s x)) :
    ∀ s : Season, NonnegSeason s → NonnegSeason (l.foldl step s) := by
  induction l with
  | nil => intro s hs; exact hs
  | cons a as ih =>
    intro s hs
    rw [List.foldl_cons]
    exact ih (fun s' x hx hs' => h s' x (List.mem_cons_of_mem a hx) hs')
      (step s a) (h s a (List.mem_cons_self a as) hs)

theorem bumpTier_nonneg (label : Tier) (place : Nat) {t : Totals}
    (ht : NonnegTotals t) : NonnegTotals (bumpTier label place t) := by
  obtain ⟨h1, h2, h3, h4, h5, h6, h7, h8⟩ := ht
  refine ⟨h1, h2, h3, h4, h5, ?_, ?_, ?_⟩ <;> simp [bumpTier] <;> split <;> omega

theorem applyPlacement_nonneg (label : Tier) (awards : Nat → Nat)
    (pl : Nat × List String) {s : Season} (hs : NonnegSeason s) :
    NonnegSeason (applyPlacement label awards s pl) := by
  unfold applyPlacement
  by_cases h : awards pl.1 = 0
  · simp only [h, if_true]
    exact hs
  · simp only [h, if_false]
    refine foldl_nonneg _ pl.2 ?_ s hs
    intro s' p _ hs'
    by_cases hp : trimName p = ""
    · simp only [hp, if_true]
      exact hs'
    · simp only [hp, if_false]
      refine nonnegSeason_setTotals hs' _ ?_
      refine bumpTier_nonneg _ _ ?_
      obtain ⟨h1, h2, h3, h4, h5, h6, h7, h8⟩ :=
        nonnegSeason_getTotals hs' (trimName p)
      exact ⟨by positivity, h2, h3, h4, h5, h6, h7, h8⟩

theorem applyGame_nonneg {g : GameRec} (hg1 : 0 ≤ g.s1) (hg2 : 0 ≤ g.s2)
    {s : Season} (hs : NonnegSeason s) : NonnegSeason (applyGame s g) := by
  have hpfpa : ∀ (x y : Int), 0 ≤ x → 0 ≤ y → ∀ (l : List String) (s' : Season),
      NonnegSeason s' → NonnegSeason (l.foldl (addPFPA x y) s') := by
    intro x y hx hy l s' hs'
    refine foldl_nonneg _ l ?_ s' hs'
    intro s'' p _ hs''
    refine nonnegSeason_setTotals hs'' _ ?_
    obtain ⟨h1, h2, h3, h4, h5, h6, h7, h8⟩ := nonnegSeason_getTotals hs'' p
    exact ⟨h1, h2, h3, by positivity, by positivity, h6, h7, h8⟩
  have hwin : ∀ (l : List String) (s' : Season),
      NonnegSeason s' → NonnegSeason (l.foldl addWin s') := by
    intro l s' hs'
    refine foldl_nonneg _ l ?_ s' hs'
    intro s'' p _ hs''
    refine nonnegSeason_setTotals hs'' _ ?_
    obtain ⟨h1, h2, h3, h4, h5, h6, h7, h8⟩ := nonnegSeason_getTotals hs'' p
    exact ⟨h1, by positivity, h3, h4, h5, h6, h7, h8⟩
  have hloss : ∀ (l : List String) (s' : Season),
      NonnegSeason s' → NonnegSeason (l.foldl addLoss s') := by
    intro l s' hs'
    refine foldl_nonneg _ l ?_ s' hs'
    intro s'' p _ hs''
    refine nonnegSeason_setTotals hs'' _ ?_
    obtain ⟨h1, h2, h3, h4, h5, h6, h7, h8⟩ := nonnegSeason_getTotals hs'' p
    exact ⟨h1, h2, by positivity, h4, h5, h6, h7, h8⟩
  unfold applyGame
  by_cases hA : g.s2 < g.s1
  · simp only [hA, if_true]
    exact hloss _ _ (hwin _ _ (hpfpa _ _ hg2 hg1 _ _ (hpfpa _ _ hg1 hg2 _ _ hs)))
  · by_cases hB : g.s1 < g.s2
    · simp only [hA, hB, if_false, if_true]
      exact hloss _ _ (hwin _ _ (hpfpa _ _ hg2 hg1 _ _ (hpfpa _ _ hg1 hg2 _ _ hs)))
    · simp only [hA, hB, if_false]
      exact hpfpa _ _ hg2 hg1 _ _ (hpfpa _ _ hg1 hg2 _ _ hs)

theorem applyEventToSeason_nonneg {ev : Event}
    (hev : ∀ g ∈ ev.gameStats, 0 ≤ g.s1 ∧ 0 ≤ g.s2) {s : Season}
    (hs : NonnegSeason s) : NonnegSeason (applyEventToSeason s ev) := by
  unfold applyEventToSeason
  cases POINTS_TABLE ev.size with
  | none => exact hs
  | some info =>
    refine foldl_nonneg applyGame ev.gameStats ?_ _ ?_
    · intro s' g hg hs'
      exact applyGame_nonneg (hev g hg).1 (hev g hg).2 hs'
    · refine foldl_nonneg _ ev.placements ?_ s hs
      intro s' pl _ hs'
      exact applyPlacement_nonneg info.label info.awards pl hs'

/-- C10: over any event sequence whose game scores are all nonnegative,
every field of every produced player aggregate, points, wins, losses,
PF, PA and the three tier title counters, is nonnegative. -/
theorem c10_nonnegative_aggregates :
    ∀ events : List Event,
      (∀ ev ∈ events, ∀ g ∈ ev.gameStats, 0 ≤ g.s1 ∧ 0 ≤ g.s2) →
      ∀ (n : String) (t : Totals), recomputeFromLedger events n = some t →
        0 ≤ t.Points ∧ 0 ≤ t.Wins ∧ 0 ≤ t.Losses ∧ 0 ≤ t.PF ∧ 0 ≤ t.PA ∧
        0 ≤ t.SlamWins ∧ 0 ≤ t.SignatureWins ∧ 0 ≤ t.ChallengerWins := by
  intro events hev
  have hbase : NonnegSeason emptySeason := by
    intro n t h
    exact Option.noConfusion h
  exact foldl_nonneg applyEventToSeason events
    (fun s ev hmem hs => applyEventToSeason_nonneg (hev ev hmem) hs)
    emptySeason hbase

/-- C10 witness: the aggregate of Al after the concrete supported event
is nonnegative in every field. -/
theorem c10_nonnegative_aggregates_witness :
    0 ≤ (250 : Int) ∧ 0 ≤ (1 : Int) ∧ 0 ≤ (0 : Int) ∧ 0 ≤ (11 : Int) ∧
      0 ≤ (7 : Int) ∧ 0 ≤ (0 : Int) ∧ 0 ≤ (0 : Int) ∧ 0 ≤ (1 : Int) :=
  c10_nonnegative_aggregates [evC3a] (by decide) "Al"
    ⟨250, 1, 0, 11, 7, 0, 0, 1⟩ (by decide)

/-! ### C4 -/

theorem rankPlayers_map_row (rows : List Row) :
    (rankPlayers rows).map RankedRow.row = jsSortBy rowBefore rows := by
  unfold rankPlayers
  rw [List.map_map]
  have h : (RankedRow.row ∘ fun ir : Nat × Row =>
      (⟨ir.2, ir.1 + 1, round2 (calcAvgDiff ir.2)⟩ : RankedRow)) = Prod.snd :=
    funext fun ir => rfl
  rw [h, List.enum_map_snd]

/-- Two rows agreeing on points, wins and PF whose exact average diffs
differ but round to the same two decimals. -/
def rowEx1 : Row := ⟨"Al", ⟨0, 500, 500, 2, 0, 0, 0, 0⟩⟩

/-- The partner row of rowEx1 in the display-rounding example. -/
def rowEx2 : Row := ⟨"Bo", ⟨0, 500, 500, 2, 1, 0, 0, 0⟩⟩

/-- C4: the season ranking comparator is exactly the cascade points
desc, wins desc, PF desc, exact average diff desc, name ascending; it is
transitive and, for rows with distinct names, total and asymmetric;
rankPlayers emits a permutation of its input sorted by the cascade; the
average diff used for comparison is the exact quotient, zero without
games, and rounding affects only the display: two rows with equal
rounded average diffs are still separated by their exact values. -/
theorem c4_season_ranking_cascade :
    (∀ a b : Row, rowBefore a b = true ↔ cascadeBefore a b) ∧
    (∀ a b c : Row, rowBefore a b = true → rowBefore b c = true →
        rowBefore a c = true) ∧
    (∀ a b : Row, nameKey a.Player ≠ nameKey b.Player →
        (rowBefore a b = true ↔ ¬ rowBefore b a = true)) ∧
    (∀ rows : List Row,
        ((rankPlayers rows).map RankedRow.row).Perm rows ∧
        ((rankPlayers rows).map RankedRow.row).Pairwise
          fun x y => ¬ cascadeBefore y x) ∧
    (∀ r : Row, calcAvgDiff r =
        if (r.totals.Wins + r.totals.Losses : Int) = 0 then 0
        else ((r.totals.PF - r.totals.PA : Int) : ℚ)
          / ((r.totals.Wins + r.totals.Losses : Int) : ℚ)) ∧
    (rowBefore rowEx1 rowEx2 = true ∧
     round2 (calcAvgDiff rowEx1) = round2 (calcAvgDiff rowEx2) ∧
     calcAvgDiff rowEx1 ≠ calcAvgDiff rowEx2) := by
  refine ⟨rowBefore_iff_cascade, ?_, ?_, ?_, fun r => rfl, ?_, ?_, ?_⟩
  · intro a b c hab hbc
    rw [rowBefore_iff_keyLt] at hab hbc ⊢
    exact lt_trans hab hbc
  · intro a b hne
    constructor
    · intro h hcontra
      rw [rowBefore_iff_keyLt] at h hcontra
      exact lt_asymm h hcontra
    · intro h
      rcases lt_trichotomy (rowKey a) (rowKey b) with hlt | heq | hgt
      · exact (rowBefore_iff_keyLt a b).mpr hlt
      · exfalso
        apply hne
        have h2 := toLex_inj.mp heq
        have h3 := congrArg Prod.snd h2
        have h4 := toLex_inj.mp h3
        have h5 := congrArg Prod.snd h4
        have h6 := toLex_inj.mp h5
        have h7 := congrArg Prod.snd h6
        have h8 := toLex_inj.mp h7
        exact congrArg Prod.snd h8
      · exact absurd ((rowBefore_iff_keyLt b a).mpr hgt) h
  · intro rows
    rw [rankPlayers_map_row]
    constructor
    · exact jsSortBy_perm rowBefore rows
    · have hsorted := jsSortBy_pairwise rowKey rowBefore rowBefore_iff_keyLt rows
      refine hsorted.imp ?_
      intro x y hle
      rw [cascade_iff_keyLt]
      exact not_lt.mpr hle
  · rw [rowBefore_iff_cascade]
    refine Or.inr ⟨rfl, Or.inr ⟨rfl, Or.inr ⟨rfl, Or.inl ?_⟩⟩⟩
    norm_num [calcAvgDiff, rowEx1, rowEx2]
  · norm_num [round2, calcAvgDiff, rowEx1, rowEx2, round_eq]
  · norm_num [calcAvgDiff, rowEx1, rowEx2]

/-- C4 witness: transitivity of the ranking comparator at three concrete
rows separated at the points level. -/
theorem c4_season_ranking_cascade_witness :
    rowBefore ⟨"Al", ⟨3, 0, 0, 0, 0, 0, 0, 0⟩⟩
      ⟨"Cy", ⟨1, 0, 0, 0, 0, 0, 0, 0⟩⟩ = true :=
  c4_season_ranking_cascade.2.1 ⟨"Al", ⟨3, 0, 0, 0, 0, 0, 0, 0⟩⟩
    ⟨"Bo", ⟨2, 0, 0, 0, 0, 0, 0, 0⟩⟩ ⟨"Cy", ⟨1, 0, 0, 0, 0, 0, 0, 0⟩⟩
    (by decide) (by decide)

/-- C2 witness: a rank-1 placement in a size-8 event increments the
Slam counter. -/
theorem c2_points_table_and_titles_witness :
    (getTotals (applyEventToSeason emptySeason (rankOneEvent 8 "Al")) "Al").SlamWins =
      (getTotals emptySeason "Al").SlamWins + (if (8 : Nat) = 8 then 1 else 0) :=
  (c2_points_table_and_titles.2.2.2.2.2.2.2.2.2.2.2 emptySeason 8 "Al"
    (by decide) (by decide) (by decide)).1

end VCCC
